import Mathlib

/-!
Verification of the route-to-traffic spatial matching engine
(`src/prt_otp_analysis/traffic_overlay.py`).

The Python module is embedded shallowly:

* Coordinates and traffic quantities are exact rationals (`ℚ`).  The module
  constant `METERS_PER_DEG_LON = 111320 * cos(radians(40.44))` is a
  transcendental real; every definition that needs it takes the
  meters-per-degree-longitude scale as an explicit parameter `mLon : ℚ`
  (all claims hold for every value of that parameter, in particular for any
  rational approximation of the source's constant).
* The Web-Mercator inverse projection `web_mercator_to_wgs84` (built from
  `exp`/`atan`) is likewise passed to the parser as an explicit parameter
  `w2w`; no claim depends on its actual values.
* NumPy float64 arithmetic never raises on division by zero: a zero
  denominator produces a non-finite value (NaN or ±inf).  This is modelled
  by `NumF` and `npDivQ`.  Python scalar division, which raises
  `ZeroDivisionError` on a zero denominator, is modelled by `pyDiv` in an
  `Except Unit` monad.
* Euclidean distances are handled through squared distances (`sqDist`),
  which keeps every definition executable over `ℚ`: for a positive spacing
  `s`, the source's `dist > spacing` is exactly `sqDist > s ^ 2`, and the
  source's `int(dist / spacing)` is exactly `Nat.sqrt ⌊sqDist / s ^ 2⌋`
  (proved against `Real.sqrt` in `nInterp_eq_floor_sqrt` below).
-/

/-- A NumPy float64 value in the exact model: either a finite rational or a
non-finite value (NaN / ±inf).  NumPy division by zero yields a non-finite
value and never raises an exception. -/
inductive NumF where
  | fin (q : ℚ)
  | nonfin
  deriving DecidableEq, Repr

/-- NumPy float64 division of finite operands: total; a zero denominator
yields a non-finite value (0/0 is NaN, x/0 is ±inf), never an exception. -/
def npDivQ (a b : ℚ) : NumF :=
  if b = 0 then NumF.nonfin else NumF.fin (a / b)

/-- Python scalar (true) division: raises `ZeroDivisionError` when the
denominator is zero, modelled as `Except.error ()`. -/
def pyDiv (a b : ℚ) : Except Unit ℚ :=
  if b = 0 then Except.error () else Except.ok (a / b)

/-- The raw `attributes` object of one PennDOT ArcGIS feature, with the
fields requested by the query in `traffic_overlay.py`.  An absent or
JSON-null field is `none`. -/
structure RawAttributes where
  OBJECTID : Option ℤ
  CUR_AADT : Option ℤ
  TRK_PCT : Option ℚ
  SEG_LNGTH_FEET : Option ℚ
  ST_RT_NO : Option ℤ
  deriving DecidableEq, Repr

/-- One raw PennDOT ArcGIS feature: attributes plus the `geometry.paths`
coordinate paths (`feat.get("geometry", {}).get("paths", [])`); a missing
geometry object or missing paths key is the empty list. -/
structure RawFeature where
  attributes : RawAttributes
  geometry_paths : List (List (ℚ × ℚ))
  deriving DecidableEq, Repr

/-- A parsed road segment, the dict built by `parse_penndot_segments`
(the spec's `RoadSegment` entity). -/
structure RoadSegment where
  object_id : Option ℤ
  aadt : ℤ
  truck_pct : Option ℚ
  length_ft : ℚ
  route_no : Option ℤ
  points : List (ℚ × ℚ)
  deriving DecidableEq, Repr

instance : Inhabited RoadSegment :=
  ⟨{ object_id := none, aadt := 0, truck_pct := none, length_ft := 0,
     route_no := none, points := [] }⟩

/-- The segment dict built from one feature that passed both skip checks:
`aadt` is the checked `CUR_AADT` value, `length_ft` is
`attrs.get("SEG_LNGTH_FEET", 0.0) or 0.0` (so an absent or null length
becomes `0.0`; the Python `or 0.0` also maps the float `0.0` to itself),
and `points` concatenates every geometry path converted by `w2w`. -/
def segOf (w2w : ℚ × ℚ → ℚ × ℚ) (f : RawFeature) : RoadSegment :=
  { object_id := f.attributes.OBJECTID
    aadt := f.attributes.CUR_AADT.getD 0
    truck_pct := f.attributes.TRK_PCT
    length_ft := f.attributes.SEG_LNGTH_FEET.getD 0
    route_no := f.attributes.ST_RT_NO
    points := (f.geometry_paths.map (fun path => path.map w2w)).flatten }

/-- `parse_penndot_segments`: walk the feature list; skip (and count) a
feature whose `CUR_AADT` is missing or `≤ 0`, or whose `paths` list is
empty; otherwise emit its segment dict.  Returns the segment list together
with the skip count (the source keeps the count in a local and prints it).
The Web-Mercator conversion applied per point is the parameter `w2w`. -/
def parse_penndot_segments (w2w : ℚ × ℚ → ℚ × ℚ) :
    List RawFeature → List RoadSegment × ℕ
  | [] => ([], 0)
  | f :: rest =>
    let r := parse_penndot_segments w2w rest
    match f.attributes.CUR_AADT with
    | none => (r.1, r.2 + 1)
    | some a =>
      if a ≤ 0 then (r.1, r.2 + 1)
      else if f.geometry_paths = [] then (r.1, r.2 + 1)
      else (segOf w2w f :: r.1, r.2)

/-- Module constant `METERS_PER_DEG_LAT = 111_320.0`. -/
def METERS_PER_DEG_LAT : ℚ := 111320

/-- Module constant `BUFFER_METERS = 30.0`. -/
def BUFFER_METERS : ℚ := 30

/-- Module constant `DENSIFY_SPACING_M = 15.0`. -/
def DENSIFY_SPACING_M : ℚ := 15

/-- `to_local_meters`: equirectangular projection of a `(lat, lon)` pair to
local planar meters.  `mLon` stands for the module constant
`METERS_PER_DEG_LON = 111320 * cos(radians(40.44))`. -/
def to_local_meters (mLon : ℚ) (p : ℚ × ℚ) : ℚ × ℚ :=
  (p.1 * METERS_PER_DEG_LAT, p.2 * mLon)

/-- Squared planar Euclidean distance; `math.hypot(mx1 - mx0, my1 - my0)`
in the source is `Real.sqrt (sqDist m0 m1)`. -/
def sqDist (p q : ℚ × ℚ) : ℚ :=
  (p.1 - q.1) ^ 2 + (p.2 - q.2) ^ 2

/-- Linear interpolation in lat/lon space, the source's
`lat0 + frac * (lat1 - lat0)` / `lon0 + frac * (lon1 - lon0)`. -/
def lerp (t : ℚ) (p0 p1 : ℚ × ℚ) : ℚ × ℚ :=
  (p0.1 + t * (p1.1 - p0.1), p0.2 + t * (p1.2 - p0.2))

/-- The source's `n_interp = int(dist / spacing_m)` expressed over the
squared distance: for `0 ≤ sq` and `0 < s` this equals
`⌊Real.sqrt sq / s⌋` (see `nInterp_eq_floor_sqrt`). -/
def nInterp (sq s : ℚ) : ℕ :=
  Nat.sqrt (Int.toNat ⌊sq / s ^ 2⌋)

/-- The interpolated points inserted by `densify_segment` between one pair
of consecutive polyline points: if the edge length in local planar meters
exceeds `spacing` (for positive spacing, `sqDist > spacing ^ 2`), insert
`n_interp` points at fractions `j / (n_interp + 1)`, `j = 1 .. n_interp`.
For non-positive spacing the guard is false; the source never uses one
(its spacing is the constant `15.0`, and a zero spacing would raise
`ZeroDivisionError` inside `int(dist / spacing_m)`). -/
def edgeInterp (mLon s : ℚ) (p0 p1 : ℚ × ℚ) : List (ℚ × ℚ) :=
  if 0 < s ∧
      s ^ 2 < sqDist (to_local_meters mLon p0) (to_local_meters mLon p1) then
    (List.range
      (nInterp (sqDist (to_local_meters mLon p0) (to_local_meters mLon p1)) s)).map
      (fun j : ℕ => lerp (((j : ℚ) + 1) /
        ((nInterp (sqDist (to_local_meters mLon p0) (to_local_meters mLon p1)) s : ℚ) + 1))
        p0 p1)
  else []

/-- `densify_segment`: walk the polyline edge by edge, keeping every
original point and inserting the interpolated points of each edge between
its endpoints. -/
def densify_segment (mLon s : ℚ) : List (ℚ × ℚ) → List (ℚ × ℚ)
  | [] => []
  | [p] => [p]
  | p0 :: p1 :: rest =>
    p0 :: (edgeInterp mLon s p0 p1 ++ densify_segment mLon s (p1 :: rest))

/-- `build_penndot_kdtree`: the spatial index contents — every densified
point of every segment, converted to local meters and tagged with the
index of its originating segment (the source keeps the coordinates and the
segment indices in two parallel arrays; here each indexed point is paired
with its segment index directly). -/
def build_penndot_kdtree (mLon : ℚ) (segments : List RoadSegment) :
    List ((ℚ × ℚ) × ℕ) :=
  segments.enum.flatMap (fun is =>
    (densify_segment mLon DENSIFY_SPACING_M is.2.points).map
      (fun p => (to_local_meters mLon p, is.1)))

/-- `KDTree.query_ball_point` for a single query point: exactly the
indexed points whose planar Euclidean distance to the query point is at
most `r` (for the source's positive radius `30.0`, `dist ≤ r` is
`sqDist ≤ r ^ 2`). -/
def query_ball_point (tree : List ((ℚ × ℚ) × ℕ)) (q : ℚ × ℚ) (r : ℚ) :
    List ((ℚ × ℚ) × ℕ) :=
  tree.filter (fun t => decide (sqDist t.1 q ≤ r ^ 2))

/-- The per-route-point query results (`indices` in `match_routes`): one
radius query per route point, each route point first converted to local
meters. -/
def route_hits (mLon : ℚ) (tree : List ((ℚ × ℚ) × ℕ))
    (pts : List (ℚ × ℚ)) : List (List ((ℚ × ℚ) × ℕ)) :=
  pts.map (fun p => query_ball_point tree (to_local_meters mLon p) BUFFER_METERS)

/-- `set.add`: append the segment index unless already present.  A Python
set is modelled as a duplicate-free list; the set's iteration order is
unspecified in Python and every aggregate computed from it is
order-insensitive in exact arithmetic. -/
def addSeg (s : List ℕ) (i : ℕ) : List ℕ :=
  if i ∈ s then s else s ++ [i]

/-- `matched_seg_set`: the union, over all route points, of the segment
indices attached to every returned index point (the source's loop only
adds from non-empty result lists, which yields the same set). -/
def matchedSegSet (mLon : ℚ) (tree : List ((ℚ × ℚ) × ℕ))
    (pts : List (ℚ × ℚ)) : List ℕ :=
  (route_hits mLon tree pts).foldl
    (fun s l => (l.map Prod.snd).foldl addSeg s) []

/-- `n_matched_pts`: the number of route points whose radius query
returned at least one index point. -/
def nMatchedPts (mLon : ℚ) (tree : List ((ℚ × ℚ) × ℕ))
    (pts : List (ℚ × ℚ)) : ℕ :=
  ((route_hits mLon tree pts).filter (fun l => !l.isEmpty)).length

/-- `matched = [segments[i] for i in matched_seg_set]`. -/
def matchedList (segments : List RoadSegment) (S : List ℕ) :
    List RoadSegment :=
  S.map (fun i => segments.getD i default)

/-- `aadts = np.array([s["aadt"] for s in matched], dtype=float)`. -/
def aadtsOf (segments : List RoadSegment) (S : List ℕ) : List ℚ :=
  (matchedList segments S).map (fun s => (s.aadt : ℚ))

/-- `lengths = np.array([s["length_ft"] for s in matched], dtype=float)`. -/
def lengthsOf (segments : List RoadSegment) (S : List ℕ) : List ℚ :=
  (matchedList segments S).map (fun s => s.length_ft)

/-- `total_length = float(np.sum(lengths))`. -/
def totalLengthOf (segments : List RoadSegment) (S : List ℕ) : ℚ :=
  (lengthsOf segments S).sum

/-- `weighted_aadt`: `np.sum(aadts * lengths) / total_length` when
`total_length > 0`, otherwise `np.mean(aadts)` (the source only reaches
this with a non-empty `matched`, so the mean's denominator is positive
there). -/
def weightedAadtOf (segments : List RoadSegment) (S : List ℕ) : ℚ :=
  if 0 < totalLengthOf segments S then
    (List.zipWith (· * ·) (aadtsOf segments S) (lengthsOf segments S)).sum /
      totalLengthOf segments S
  else
    (aadtsOf segments S).sum / ((aadtsOf segments S).length : ℚ)

/-- The matched segments that report a truck percentage
(`[s for s in matched if s["truck_pct"] is not None]`). -/
def truckSegsOf (segments : List RoadSegment) (S : List ℕ) :
    List RoadSegment :=
  (matchedList segments S).filter (fun s => s.truck_pct.isSome)

/-- `truck_pcts`: the reported truck percentages of the truck-reporting
matched segments. -/
def truckValsOf (segments : List RoadSegment) (S : List ℕ) : List ℚ :=
  (truckSegsOf segments S).filterMap (fun s => s.truck_pct)

/-- `truck_lengths`: the lengths of the truck-reporting matched
segments. -/
def truckLengthsOf (segments : List RoadSegment) (S : List ℕ) : List ℚ :=
  (truckSegsOf segments S).map (fun s => s.length_ft)

/-- `avg_truck_pct`: when some segment reports a truck percentage and
`total_length > 0`, the NumPy division
`np.sum(truck_vals * truck_lengths) / np.sum(truck_lengths)` (non-finite,
not an exception, when the truck-reporting lengths sum to zero); with
truck reporters but `total_length ≤ 0`, the unweighted mean
`np.mean(truck_pcts)`; with no truck reporter, Python `None`. -/
def avgTruckOf (segments : List RoadSegment) (S : List ℕ) : Option NumF :=
  if truckValsOf segments S ≠ [] ∧ 0 < totalLengthOf segments S then
    some (npDivQ
      ((List.zipWith (· * ·) (truckValsOf segments S)
        (truckLengthsOf segments S)).sum)
      (truckLengthsOf segments S).sum)
  else if truckValsOf segments S ≠ [] then
    some (NumF.fin
      ((truckValsOf segments S).sum / ((truckValsOf segments S).length : ℚ)))
  else
    none

/-- `np.max` over a non-empty value list (the source's
`int(np.max(aadts))`; AADT values are integers, so the float round trip is
exact).  The empty case is never reached by the source; it is given the
junk value 0. -/
def listMax : List ℤ → ℤ
  | [] => 0
  | a :: rest => rest.foldl max a

/-- `max_aadt = int(np.max(aadts))`. -/
def maxAadtOf (segments : List RoadSegment) (S : List ℕ) : ℤ :=
  listMax ((matchedList segments S).map (fun s => s.aadt))

/-- `np.median`: sort; for odd length the middle element, for even length
the mean of the two middle elements.  The empty case is never reached by
the source; it is given the junk value 0. -/
def npMedian (l : List ℚ) : ℚ :=
  let s := List.insertionSort (· ≤ ·) l
  let n := s.length
  if n = 0 then 0
  else if n % 2 = 1 then s.getD (n / 2) 0
  else (s.getD (n / 2 - 1) 0 + s.getD (n / 2) 0) / 2

/-- `np.percentile(·, 90)` with the default linear interpolation: with the
values sorted, the virtual position is `(n - 1) * 90 / 100`; the result
interpolates between the neighbouring order statistics.  The empty case is
never reached by the source; it is given the junk value 0. -/
def npPercentile90 (l : List ℚ) : ℚ :=
  let s := List.insertionSort (· ≤ ·) l
  let n := s.length
  if n = 0 then 0
  else
    let pos : ℚ := ((n : ℚ) - 1) * 9 / 10
    let i : ℕ := Int.toNat ⌊pos⌋
    if i + 1 < n then s.getD i 0 + (pos - (i : ℚ)) * (s.getD (i + 1) 0 - s.getD i 0)
    else s.getD i 0

/-- One output row of `match_routes` (the spec's `MatchResult`).  The
source's `route_id` string is modelled as a numeric identifier carried
through unchanged; `avg_truck_pct` is `none` for Python `None` and
otherwise holds the computed NumPy float64 value. -/
structure MatchResult where
  route_id : ℕ
  n_segments : ℕ
  total_length_ft : ℚ
  weighted_aadt : ℚ
  max_aadt : ℤ
  median_aadt : ℚ
  p90_aadt : ℚ
  avg_truck_pct : Option NumF
  n_route_points : ℕ
  match_rate : ℚ
  deriving DecidableEq, Repr

/-- The body of the per-route loop of `match_routes`: query the index
around every route point, compute the match rate (Python division, guarded
by `n_route_pts > 0`), and either emit the all-zero record (empty matched
set) or the aggregated record. -/
def match_route_one (mLon : ℚ) (rid : ℕ) (segments : List RoadSegment)
    (tree : List ((ℚ × ℚ) × ℕ)) (pts : List (ℚ × ℚ)) :
    Except Unit MatchResult := do
  let n_route_pts := pts.length
  let S := matchedSegSet mLon tree pts
  let match_rate ←
    if 0 < n_route_pts then pyDiv (nMatchedPts mLon tree pts : ℚ) (n_route_pts : ℚ)
    else pure 0
  if S = [] then
    pure { route_id := rid, n_segments := 0, total_length_ft := 0,
           weighted_aadt := 0, max_aadt := 0, median_aadt := 0, p90_aadt := 0,
           avg_truck_pct := none, n_route_points := n_route_pts,
           match_rate := match_rate }
  else
    pure { route_id := rid, n_segments := S.length,
           total_length_ft := totalLengthOf segments S,
           weighted_aadt := weightedAadtOf segments S,
           max_aadt := maxAadtOf segments S,
           median_aadt := npMedian (aadtsOf segments S),
           p90_aadt := npPercentile90 (aadtsOf segments S),
           avg_truck_pct := avgTruckOf segments S,
           n_route_points := n_route_pts, match_rate := match_rate }

/-- `match_routes`: one result per route (the source iterates the route
dictionary in sorted key order; the routes are given here as an already
ordered association list, which the claims do not depend on). -/
def match_routes (mLon : ℚ) (segments : List RoadSegment)
    (tree : List ((ℚ × ℚ) × ℕ)) (routes : List (ℕ × List (ℚ × ℚ))) :
    Except Unit (List MatchResult) :=
  routes.mapM (fun rp => match_route_one mLon rp.1 segments tree rp.2)

/-!
Helper lemmas.  These characterize the executable definitions above in
extensional terms and are shared by the claim theorems below.
-/

/-- Membership in the Python-set model: `addSeg` adds exactly one element. -/
lemma mem_addSeg {s : List ℕ} {a i : ℕ} : i ∈ addSeg s a ↔ i ∈ s ∨ i = a := by
  unfold addSeg
  by_cases h : a ∈ s
  · simp only [if_pos h]
    constructor
    · exact fun hi => Or.inl hi
    · rintro (hi | rfl) <;> [exact hi; exact h]
  · simp [if_neg h]

/-- `addSeg` preserves freedom from duplicates. -/
lemma nodup_addSeg {s : List ℕ} (hs : s.Nodup) (a : ℕ) : (addSeg s a).Nodup := by
  unfold addSeg
  by_cases h : a ∈ s
  · simpa [if_pos h]
  · simpa [if_neg h, List.nodup_append, hs] using h

/-- Membership after folding `addSeg` over a list of new indices. -/
lemma mem_foldl_addSeg {l : List ℕ} {s : List ℕ} {i : ℕ} :
    i ∈ l.foldl addSeg s ↔ i ∈ s ∨ i ∈ l := by
  induction l generalizing s with
  | nil => simp
  | cons a t ih =>
    simp only [List.foldl_cons, ih, mem_addSeg, List.mem_cons]
    tauto

/-- Folding `addSeg` preserves freedom from duplicates. -/
lemma nodup_foldl_addSeg {l : List ℕ} {s : List ℕ} (hs : s.Nodup) :
    (l.foldl addSeg s).Nodup := by
  induction l generalizing s with
  | nil => exact hs
  | cons a t ih => exact ih (nodup_addSeg hs a)

/-- Membership after the outer fold of `matchedSegSet`. -/
lemma mem_foldl_segunion {hits : List (List ((ℚ × ℚ) × ℕ))} {s : List ℕ} {i : ℕ} :
    i ∈ hits.foldl (fun s l => (l.map Prod.snd).foldl addSeg s) s ↔
      i ∈ s ∨ ∃ l ∈ hits, ∃ t ∈ l, t.2 = i := by
  induction hits generalizing s with
  | nil => simp
  | cons a t ih =>
    simp only [List.foldl_cons, ih, mem_foldl_addSeg, List.mem_cons, List.mem_map]
    constructor
    · rintro ((hi | ⟨u, hu, rfl⟩) | ⟨l, hl, hw⟩)
      · exact Or.inl hi
      · exact Or.inr ⟨a, Or.inl rfl, u, hu, rfl⟩
      · exact Or.inr ⟨l, Or.inr hl, hw⟩
    · rintro (hi | ⟨l, (rfl | hl), u, hu, hw⟩)
      · exact Or.inl (Or.inl hi)
      · exact Or.inl (Or.inr ⟨u, hu, hw⟩)
      · exact Or.inr ⟨l, hl, u, hu, hw⟩

/-- The outer fold of `matchedSegSet` preserves freedom from duplicates. -/
lemma nodup_foldl_segunion {hits : List (List ((ℚ × ℚ) × ℕ))} {s : List ℕ}
    (hs : s.Nodup) :
    (hits.foldl (fun s l => (l.map Prod.snd).foldl addSeg s) s).Nodup := by
  induction hits generalizing s with
  | nil => exact hs
  | cons a t ih => exact ih (nodup_foldl_addSeg hs)

/-- The matched-segment set is duplicate-free. -/
lemma nodup_matchedSegSet (mLon : ℚ) (tree : List ((ℚ × ℚ) × ℕ))
    (pts : List (ℚ × ℚ)) : (matchedSegSet mLon tree pts).Nodup :=
  nodup_foldl_segunion List.nodup_nil

/-- Extensional characterization of the matched-segment set: a segment
index is matched exactly when some route point has some index point of
that segment within the buffer radius. -/
lemma mem_matchedSegSet {mLon : ℚ} {tree : List ((ℚ × ℚ) × ℕ)}
    {pts : List (ℚ × ℚ)} {i : ℕ} :
    i ∈ matchedSegSet mLon tree pts ↔
      ∃ p ∈ pts, ∃ t ∈ tree,
        sqDist t.1 (to_local_meters mLon p) ≤ BUFFER_METERS ^ 2 ∧ t.2 = i := by
  unfold matchedSegSet route_hits query_ball_point
  rw [mem_foldl_segunion]
  simp only [List.mem_map, List.not_mem_nil, false_or]
  constructor
  · rintro ⟨l, ⟨p, hp, rfl⟩, t, ht, hw⟩
    rw [List.mem_filter, decide_eq_true_eq] at ht
    exact ⟨p, hp, t, ht.1, ht.2, hw⟩
  · rintro ⟨p, hp, t, ht, hd, hw⟩
    refine ⟨_, ⟨p, hp, rfl⟩, t, ?_, hw⟩
    rw [List.mem_filter, decide_eq_true_eq]
    exact ⟨ht, hd⟩

/-- A filtered list is non-empty exactly when some element satisfies the
predicate; stated for `Bool`-valued emptiness as used by `nMatchedPts`. -/
lemma not_isEmpty_filter {α : Type} (p : α → Bool) (l : List α) :
    (!(l.filter p).isEmpty) = l.any p := by
  induction l with
  | nil => rfl
  | cons a t ih =>
    by_cases h : p a
    · simp [List.filter_cons, h]
    · simp [List.filter_cons, h, ih]

/-- The number of hitting route points is a count over the route points:
a route point counts exactly when some index point lies within the buffer
radius of it. -/
lemma nMatchedPts_eq_countP (mLon : ℚ) (tree : List ((ℚ × ℚ) × ℕ))
    (pts : List (ℚ × ℚ)) :
    nMatchedPts mLon tree pts =
      pts.countP (fun p => tree.any
        (fun t => decide (sqDist t.1 (to_local_meters mLon p) ≤ BUFFER_METERS ^ 2))) := by
  unfold nMatchedPts route_hits
  rw [← List.countP_eq_length_filter, List.countP_map]
  refine List.countP_congr (fun p _ => ?_)
  simp only [Function.comp_apply, query_ball_point, not_isEmpty_filter]

/-- A positive hit count arises from any non-empty per-point result. -/
lemma nMatchedPts_pos {mLon : ℚ} {tree : List ((ℚ × ℚ) × ℕ)}
    {pts : List (ℚ × ℚ)} {l : List ((ℚ × ℚ) × ℕ)}
    (hl : l ∈ route_hits mLon tree pts) (hne : l ≠ []) :
    0 < nMatchedPts mLon tree pts := by
  unfold nMatchedPts
  rw [← List.countP_eq_length_filter, List.countP_pos_iff]
  exact ⟨l, hl, by simpa [List.isEmpty_iff] using hne⟩

/-- Pointwise product of two maps over the same list. -/
lemma zipWith_mul_map {α : Type} (l : List α) (f g : α → ℚ) :
    List.zipWith (· * ·) (l.map f) (l.map g) = l.map (fun x => f x * g x) := by
  induction l with
  | nil => rfl
  | cons a t ih => simp [ih]

/-- Sum of a map over a duplicate-free index list as a `Finset` sum. -/
lemma sum_map_eq_sum_toFinset {S : List ℕ} (hS : S.Nodup) (f : ℕ → ℚ) :
    (S.map f).sum = ∑ i ∈ S.toFinset, f i := by
  rw [List.sum_toFinset f hS]

/-- Sum of a map over the filtered version of a duplicate-free index list
as a sum over the filtered `Finset`. -/
lemma sum_map_filter_eq_sum_toFinset {S : List ℕ} (hS : S.Nodup)
    (p : ℕ → Bool) (f : ℕ → ℚ) :
    ((S.filter p).map f).sum = ∑ i ∈ S.toFinset.filter (p ·), f i := by
  rw [← List.sum_toFinset f (hS.filter p), List.toFinset_filter]

/-- The equirectangular projection is affine in each coordinate, so it
commutes with linear interpolation. -/
lemma to_local_meters_lerp (mLon t : ℚ) (p0 p1 : ℚ × ℚ) :
    to_local_meters mLon (lerp t p0 p1) =
      lerp t (to_local_meters mLon p0) (to_local_meters mLon p1) := by
  simp only [to_local_meters, lerp, Prod.mk.injEq]
  constructor <;> ring

lemma lerp_zero (p0 p1 : ℚ × ℚ) : lerp 0 p0 p1 = p0 := by
  simp [lerp]

lemma lerp_one (p0 p1 : ℚ × ℚ) : lerp 1 p0 p1 = p1 := by
  rcases p1 with ⟨x, y⟩
  simp only [lerp, Prod.mk.injEq]
  constructor <;> ring

/-- Squared distance between two points of the same parametrized line. -/
lemma sqDist_lerp (a b : ℚ) (q0 q1 : ℚ × ℚ) :
    sqDist (lerp a q0 q1) (lerp b q0 q1) = (b - a) ^ 2 * sqDist q0 q1 := by
  simp only [sqDist, lerp]
  ring

lemma sqDist_nonneg (p q : ℚ × ℚ) : 0 ≤ sqDist p q := by
  unfold sqDist
  positivity

/-- When the guard of `edgeInterp` holds, at least one point is inserted
(the source's `n_interp = int(dist / spacing)` is at least 1 when
`dist > spacing`). -/
lemma nInterp_pos {sq s : ℚ} (hs : 0 < s) (h : s ^ 2 < sq) :
    1 ≤ nInterp sq s := by
  unfold nInterp
  have hsq : (0 : ℚ) < s ^ 2 := by positivity
  have h1 : (1 : ℚ) ≤ sq / s ^ 2 := by
    rw [le_div_iff₀ hsq]
    linarith
  have h2 : (1 : ℤ) ≤ ⌊sq / s ^ 2⌋ := by
    exact_mod_cast Int.le_floor.mpr (by exact_mod_cast h1)
  have h3 : 1 ≤ Int.toNat ⌊sq / s ^ 2⌋ := by omega
  calc 1 = Nat.sqrt 1 := rfl
    _ ≤ Nat.sqrt (Int.toNat ⌊sq / s ^ 2⌋) := Nat.sqrt_le_sqrt h3

/-- The defining bound of the insertion count: the edge's squared length
is less than `spacing ^ 2 * (n_interp + 1) ^ 2`, so each of the
`n_interp + 1` equal sub-intervals is shorter than the spacing. -/
lemma sq_lt_spacing_bound {sq s : ℚ} (hs : 0 < s) (h : s ^ 2 < sq) :
    sq < s ^ 2 * ((nInterp sq s : ℚ) + 1) ^ 2 := by
  unfold nInterp
  have hsq : (0 : ℚ) < s ^ 2 := by positivity
  have hnn : (0 : ℤ) ≤ ⌊sq / s ^ 2⌋ :=
    Int.floor_nonneg.mpr
      (div_nonneg (le_of_lt (lt_of_le_of_lt (sq_nonneg s) h)) (le_of_lt hsq))
  set m : ℕ := Int.toNat ⌊sq / s ^ 2⌋ with hm
  have hfl : (m : ℤ) = ⌊sq / s ^ 2⌋ := Int.toNat_of_nonneg hnn
  have h1 : sq / s ^ 2 < (m : ℚ) + 1 := by
    have h0 := Int.lt_floor_add_one (sq / s ^ 2)
    rw [← hfl] at h0
    exact_mod_cast h0
  have h2 : m + 1 ≤ (Nat.sqrt m + 1) ^ 2 := Nat.succ_le_of_lt (Nat.lt_succ_sqrt' m)
  have h3 : (m : ℚ) + 1 ≤ ((Nat.sqrt m : ℚ) + 1) ^ 2 := by
    exact_mod_cast h2
  have h4 : sq / s ^ 2 < ((Nat.sqrt m : ℚ) + 1) ^ 2 := lt_of_lt_of_le h1 h3
  calc sq = s ^ 2 * (sq / s ^ 2) := by field_simp
    _ < s ^ 2 * ((Nat.sqrt m : ℚ) + 1) ^ 2 := by
        exact (mul_lt_mul_left hsq).mpr h4

/-- A `Chain'` over a mapped initial segment of the naturals follows from
the relation between consecutive images. -/
lemma chain'_map_range {α : Type} (R : α → α → Prop) (g : ℕ → α) (N : ℕ)
    (h : ∀ j, j + 1 < N → R (g j) (g (j + 1))) :
    List.Chain' R ((List.range N).map g) := by
  rw [List.chain'_map]
  cases N with
  | zero => simp
  | succ n =>
    rw [List.chain'_range_succ]
    exact fun m hm => h m (by omega)

/-- One densified edge with its endpoints is a parametrized range of
evenly spaced interpolation parameters. -/
lemma edge_full_eq (mLon s : ℚ) (p0 p1 : ℚ × ℚ) (hs : 0 < s)
    (h : s ^ 2 < sqDist (to_local_meters mLon p0) (to_local_meters mLon p1)) :
    p0 :: (edgeInterp mLon s p0 p1 ++ [p1]) =
      (List.range
        (nInterp (sqDist (to_local_meters mLon p0) (to_local_meters mLon p1)) s + 2)).map
        (fun j : ℕ => lerp ((j : ℚ) /
          ((nInterp (sqDist (to_local_meters mLon p0) (to_local_meters mLon p1)) s : ℚ) + 1))
          p0 p1) := by
  set n := nInterp (sqDist (to_local_meters mLon p0) (to_local_meters mLon p1)) s with hn
  have hne : ((n : ℚ) + 1) ≠ 0 := by positivity
  rw [show n + 2 = (n + 1) + 1 from rfl, List.range_succ_eq_map, List.map_cons,
    List.map_map, List.range_succ, List.map_append]
  congr 1
  · rw [Nat.cast_zero, zero_div, lerp_zero]
  congr 1
  · unfold edgeInterp
    rw [if_pos ⟨hs, h⟩, ← hn]
    refine List.map_congr_left (fun j hj => ?_)
    simp only [Function.comp_apply]
    push_cast
    ring_nf
  · simp only [List.map_cons, List.map_nil, Function.comp_apply]
    rw [show ((Nat.succ n : ℚ)) = (n : ℚ) + 1 by push_cast; ring, div_self hne, lerp_one]

/-- Consecutive points of one densified edge, endpoints included, are at
most the spacing apart (in squared local-meter distance). -/
lemma edge_chain' (mLon s : ℚ) (p0 p1 : ℚ × ℚ) (hs : 0 < s) :
    List.Chain'
      (fun p q => sqDist (to_local_meters mLon p) (to_local_meters mLon q) ≤ s ^ 2)
      (p0 :: (edgeInterp mLon s p0 p1 ++ [p1])) := by
  by_cases h : s ^ 2 < sqDist (to_local_meters mLon p0) (to_local_meters mLon p1)
  · rw [edge_full_eq mLon s p0 p1 hs h]
    set n := nInterp (sqDist (to_local_meters mLon p0) (to_local_meters mLon p1)) s with hn
    apply chain'_map_range
    intro j hj
    rw [to_local_meters_lerp, to_local_meters_lerp, sqDist_lerp]
    have hb := sq_lt_spacing_bound hs h
    rw [← hn] at hb
    have hpos : (0 : ℚ) < ((n : ℚ) + 1) ^ 2 := by positivity
    have key : ((((j : ℕ) + 1 : ℕ) : ℚ) / ((n : ℚ) + 1) - (j : ℚ) / ((n : ℚ) + 1)) ^ 2 *
        sqDist (to_local_meters mLon p0) (to_local_meters mLon p1) =
        sqDist (to_local_meters mLon p0) (to_local_meters mLon p1) / ((n : ℚ) + 1) ^ 2 := by
      have hne : ((n : ℚ) + 1) ≠ 0 := by positivity
      push_cast
      field_simp
    rw [key, div_le_iff₀ hpos]
    nlinarith [hb]
  · unfold edgeInterp
    rw [if_neg (fun hc => h hc.2)]
    rw [List.nil_append]
    refine List.chain'_cons.mpr ⟨?_, List.chain'_singleton p1⟩
    linarith [not_lt.mp h]

/-- The densified polyline of a non-empty polyline keeps its head. -/
lemma densify_head (mLon s : ℚ) (p : ℚ × ℚ) (l : List (ℚ × ℚ)) :
    ∃ t, densify_segment mLon s (p :: l) = p :: t := by
  cases l with
  | nil => exact ⟨[], rfl⟩
  | cons q r => exact ⟨_, rfl⟩

/-- Main gap bound of the densifier: every two consecutive points of the
densified polyline are at most the spacing apart in squared local-meter
distance. -/
lemma densify_chain' (mLon s : ℚ) (hs : 0 < s) :
    ∀ pts : List (ℚ × ℚ),
      List.Chain'
        (fun p q => sqDist (to_local_meters mLon p) (to_local_meters mLon q) ≤ s ^ 2)
        (densify_segment mLon s pts)
  | [] => by rw [densify_segment]; exact List.chain'_nil
  | [p] => by rw [densify_segment]; exact List.chain'_singleton p
  | p0 :: p1 :: rest => by
    have ih := densify_chain' mLon s hs (p1 :: rest)
    obtain ⟨t, ht⟩ := densify_head mLon s p1 rest
    have hedge := edge_chain' mLon s p0 p1 hs
    rw [ht] at ih
    have hA : List.Chain'
        (fun p q => sqDist (to_local_meters mLon p) (to_local_meters mLon q) ≤ s ^ 2)
        ((p0 :: edgeInterp mLon s p0 p1) ++ [p1]) := by
      simpa using hedge
    have h1 := (List.chain'_append.mp hA).1
    have h3 := (List.chain'_append.mp hA).2.2
    rw [densify_segment, ht]
    have hsplit : p0 :: (edgeInterp mLon s p0 p1 ++ p1 :: t) =
        (p0 :: edgeInterp mLon s p0 p1) ++ (p1 :: t) := by simp
    rw [hsplit, List.chain'_append]
    refine ⟨h1, ih, fun u hu v hv => ?_⟩
    have hv' : p1 = v := by simpa using hv
    subst hv'
    exact h3 u hu p1 (by simp)

/-- A polyline whose consecutive gaps are already at most the spacing is a
fixed point of the densifier. -/
lemma densify_eq_self_of_chain' (mLon s : ℚ) (hs : 0 < s) :
    ∀ pts : List (ℚ × ℚ),
      List.Chain'
        (fun p q => sqDist (to_local_meters mLon p) (to_local_meters mLon q) ≤ s ^ 2)
        pts →
      densify_segment mLon s pts = pts
  | [], _ => rfl
  | [p], _ => rfl
  | p0 :: p1 :: rest, hch => by
    have h1 : sqDist (to_local_meters mLon p0) (to_local_meters mLon p1) ≤ s ^ 2 :=
      (List.chain'_cons.mp hch).1
    have ih := densify_eq_self_of_chain' mLon s hs (p1 :: rest)
      (List.chain'_cons.mp hch).2
    rw [densify_segment]
    unfold edgeInterp
    rw [if_neg (fun hc => absurd h1 (not_le.mpr hc.2))]
    rw [List.nil_append, ih]

/-- The executable insertion count is the source's `int(dist / spacing)`:
the floor of the edge's real planar length divided by the spacing. -/
lemma nInterp_eq_floor_sqrt {sq s : ℚ} (hsq : 0 ≤ sq) (hs : 0 < s) :
    (nInterp sq s : ℤ) = ⌊Real.sqrt (sq : ℝ) / (s : ℝ)⌋ := by
  have hsR : (0 : ℝ) < (s : ℝ) := by exact_mod_cast hs
  have hsqR : (0 : ℝ) ≤ (sq : ℝ) := by exact_mod_cast hsq
  have hx : Real.sqrt (sq : ℝ) / (s : ℝ) = Real.sqrt ((sq : ℝ) / (s : ℝ) ^ 2) := by
    rw [Real.sqrt_div hsqR, Real.sqrt_sq hsR.le]
  rw [hx]
  have hxQ : (((sq / s ^ 2 : ℚ) : ℝ)) = (sq : ℝ) / (s : ℝ) ^ 2 := by push_cast; ring
  have hfl : ⌊(sq : ℝ) / (s : ℝ) ^ 2⌋ = ⌊(sq / s ^ 2 : ℚ)⌋ := by
    rw [← hxQ, Rat.floor_cast]
  have hnn : (0 : ℤ) ≤ ⌊(sq / s ^ 2 : ℚ)⌋ :=
    Int.floor_nonneg.mpr (div_nonneg hsq (by positivity))
  set m : ℕ := Int.toNat ⌊(sq / s ^ 2 : ℚ)⌋ with hm
  have hmz : (m : ℤ) = ⌊(sq / s ^ 2 : ℚ)⌋ := Int.toNat_of_nonneg hnn
  have hxnn : (0 : ℝ) ≤ (sq : ℝ) / (s : ℝ) ^ 2 := by positivity
  unfold nInterp
  rw [← hm]
  symm
  rw [Int.floor_eq_iff]
  push_cast
  constructor
  · rw [Real.le_sqrt (by positivity) hxnn]
    have h1 : ((Nat.sqrt m : ℝ)) ^ 2 ≤ (m : ℝ) := by
      exact_mod_cast Nat.sqrt_le' m
    refine le_trans h1 ?_
    have h2 : ((m : ℤ) : ℝ) ≤ (sq : ℝ) / (s : ℝ) ^ 2 := by
      rw [hmz, ← hfl]
      exact Int.floor_le _
    exact_mod_cast h2
  · rw [Real.sqrt_lt' (by positivity)]
    have h1 : (sq : ℝ) / (s : ℝ) ^ 2 < ((m : ℤ) : ℝ) + 1 := by
      rw [hmz, ← hfl]
      exact Int.lt_floor_add_one _
    have h2 : (m : ℝ) + 1 ≤ ((Nat.sqrt m : ℝ) + 1) ^ 2 := by
      exact_mod_cast Nat.succ_le_of_lt (Nat.lt_succ_sqrt' m)
    calc (sq : ℝ) / (s : ℝ) ^ 2 < (m : ℝ) + 1 := by exact_mod_cast h1
      _ ≤ ((Nat.sqrt m : ℝ) + 1) ^ 2 := h2

/-- The parser's skip condition: missing or non-positive `CUR_AADT`, or an
empty `paths` list. -/
def skippedB (f : RawFeature) : Bool :=
  (match f.attributes.CUR_AADT with
   | none => true
   | some a => decide (a ≤ 0)) || f.geometry_paths.isEmpty

/-- Structural characterization of the parser: the segments are exactly
the per-feature dicts of the non-skipped features, in order, and the skip
count is the number of skipped features. -/
lemma parse_eq_filter_map (w2w : ℚ × ℚ → ℚ × ℚ) (F : List RawFeature) :
    parse_penndot_segments w2w F =
      ((F.filter (fun f => !skippedB f)).map (segOf w2w), F.countP skippedB) := by
  induction F with
  | nil => rfl
  | cons f rest ih =>
    rw [parse_penndot_segments, ih]
    rw [List.filter_cons, List.countP_cons]
    cases hA : f.attributes.CUR_AADT with
    | none => simp [skippedB, hA]
    | some a =>
      by_cases ha : a ≤ 0
      · simp [skippedB, hA, ha]
      · by_cases hp : f.geometry_paths = []
        · simp [skippedB, hA, ha, hp]
        · simp [skippedB, hA, ha, hp]

/-- On the truck-reporting sublist, `filterMap` of the truck percentage is
a plain map of its value. -/
lemma truckValsOf_eq_map (segments : List RoadSegment) (S : List ℕ) :
    truckValsOf segments S =
      (truckSegsOf segments S).map (fun s => s.truck_pct.getD 0) := by
  unfold truckValsOf truckSegsOf
  generalize matchedList segments S = l
  induction l with
  | nil => rfl
  | cons a t ih =>
    rw [List.filter_cons]
    by_cases h : a.truck_pct.isSome
    · rw [if_pos (by simpa using h)]
      cases ho : a.truck_pct with
      | none => rw [ho] at h; simp at h
      | some v => simp [List.filterMap_cons, ho, ih]
    · rw [if_neg (by simpa using h)]
      exact ih

/-- The truck-value and truck-length lists are aligned: same length. -/
lemma truckValsOf_length (segments : List RoadSegment) (S : List ℕ) :
    (truckValsOf segments S).length = (truckLengthsOf segments S).length := by
  rw [truckValsOf_eq_map]
  unfold truckLengthsOf
  rw [List.length_map, List.length_map]

/-- The segment looked up by a matched index, `segments[i]` in the source
(matched indices are always in range there; out-of-range indices take a
junk default). -/
def segAt (segments : List RoadSegment) (i : ℕ) : RoadSegment :=
  segments.getD i default

/-- Whether the segment of a matched index reports a truck percentage. -/
def truckP (segments : List RoadSegment) (i : ℕ) : Bool :=
  (segAt segments i).truck_pct.isSome

lemma matchedList_eq_map (segments : List RoadSegment) (S : List ℕ) :
    matchedList segments S = S.map (segAt segments) := rfl

/-- The total matched length as a set-indexed sum. -/
lemma totalLengthOf_eq_sum {segments : List RoadSegment} {S : List ℕ}
    (hS : S.Nodup) :
    totalLengthOf segments S = ∑ i ∈ S.toFinset, (segAt segments i).length_ft := by
  unfold totalLengthOf lengthsOf
  rw [matchedList_eq_map, List.map_map]
  exact sum_map_eq_sum_toFinset hS _

/-- The numerator of the weighted AADT as a set-indexed sum. -/
lemma zip_aadt_len_eq_sum {segments : List RoadSegment} {S : List ℕ}
    (hS : S.Nodup) :
    (List.zipWith (· * ·) (aadtsOf segments S) (lengthsOf segments S)).sum =
      ∑ i ∈ S.toFinset, ((segAt segments i).aadt : ℚ) * (segAt segments i).length_ft := by
  unfold aadtsOf lengthsOf
  rw [matchedList_eq_map, List.map_map, List.map_map, zipWith_mul_map]
  exact sum_map_eq_sum_toFinset hS _

/-- The AADT value sum as a set-indexed sum. -/
lemma aadts_sum_eq {segments : List RoadSegment} {S : List ℕ} (hS : S.Nodup) :
    (aadtsOf segments S).sum = ∑ i ∈ S.toFinset, ((segAt segments i).aadt : ℚ) := by
  unfold aadtsOf
  rw [matchedList_eq_map, List.map_map]
  exact sum_map_eq_sum_toFinset hS _

lemma aadts_length_eq {segments : List RoadSegment} {S : List ℕ} (hS : S.Nodup) :
    ((aadtsOf segments S).length : ℚ) = (S.toFinset.card : ℚ) := by
  unfold aadtsOf
  rw [matchedList_eq_map, List.map_map, List.length_map,
    List.toFinset_card_of_nodup hS]

/-- The truck-reporting sublist of the matched list, as a filtered index
list. -/
lemma truckSegsOf_eq (segments : List RoadSegment) (S : List ℕ) :
    truckSegsOf segments S = (S.filter (truckP segments)).map (segAt segments) := by
  unfold truckSegsOf
  rw [matchedList_eq_map, List.filter_map]
  rfl

/-- The truck-length sum as a sum over the truck-reporting index subset. -/
lemma truckLengths_sum_eq {segments : List RoadSegment} {S : List ℕ}
    (hS : S.Nodup) :
    (truckLengthsOf segments S).sum =
      ∑ i ∈ S.toFinset.filter (truckP segments ·), (segAt segments i).length_ft := by
  unfold truckLengthsOf
  rw [truckSegsOf_eq, List.map_map]
  exact sum_map_filter_eq_sum_toFinset hS _ _

/-- The truck-percentage weighted numerator as a sum over the
truck-reporting index subset. -/
lemma truckZip_sum_eq {segments : List RoadSegment} {S : List ℕ}
    (hS : S.Nodup) :
    (List.zipWith (· * ·) (truckValsOf segments S) (truckLengthsOf segments S)).sum =
      ∑ i ∈ S.toFinset.filter (truckP segments ·),
        ((segAt segments i).truck_pct.getD 0) * (segAt segments i).length_ft := by
  rw [truckValsOf_eq_map]
  unfold truckLengthsOf
  rw [truckSegsOf_eq, List.map_map, List.map_map, zipWith_mul_map]
  exact sum_map_filter_eq_sum_toFinset hS _ _

/-- Closed form of the per-route loop body: it always succeeds (the only
Python division, for `match_rate`, is guarded by `n_route_pts > 0`), and
returns either the all-zero record or the aggregated record. -/
lemma match_route_one_eq (mLon : ℚ) (rid : ℕ) (segments : List RoadSegment)
    (tree : List ((ℚ × ℚ) × ℕ)) (pts : List (ℚ × ℚ)) :
    match_route_one mLon rid segments tree pts =
      Except.ok
        (if matchedSegSet mLon tree pts = [] then
          { route_id := rid, n_segments := 0, total_length_ft := 0,
            weighted_aadt := 0, max_aadt := 0, median_aadt := 0, p90_aadt := 0,
            avg_truck_pct := none, n_route_points := pts.length,
            match_rate :=
              if 0 < pts.length then
                (nMatchedPts mLon tree pts : ℚ) / (pts.length : ℚ)
              else 0 }
        else
          { route_id := rid, n_segments := (matchedSegSet mLon tree pts).length,
            total_length_ft := totalLengthOf segments (matchedSegSet mLon tree pts),
            weighted_aadt := weightedAadtOf segments (matchedSegSet mLon tree pts),
            max_aadt := maxAadtOf segments (matchedSegSet mLon tree pts),
            median_aadt := npMedian (aadtsOf segments (matchedSegSet mLon tree pts)),
            p90_aadt := npPercentile90 (aadtsOf segments (matchedSegSet mLon tree pts)),
            avg_truck_pct := avgTruckOf segments (matchedSegSet mLon tree pts),
            n_route_points := pts.length,
            match_rate :=
              if 0 < pts.length then
                (nMatchedPts mLon tree pts : ℚ) / (pts.length : ℚ)
              else 0 }) := by
  unfold match_route_one
  by_cases hlen : 0 < pts.length
  · have hne : ((pts.length : ℚ)) ≠ 0 := by
      exact_mod_cast Nat.pos_iff_ne_zero.mp hlen
    rw [if_pos hlen]
    unfold pyDiv
    rw [if_neg hne]
    by_cases hS : matchedSegSet mLon tree pts = [] <;>
      simp [hS, hlen, Bind.bind, Except.bind, pure, Except.pure]
  · rw [if_neg hlen]
    by_cases hS : matchedSegSet mLon tree pts = [] <;>
      simp [hS, hlen, Bind.bind, Except.bind, pure, Except.pure]

/-- claim C3: for every polyline and every positive spacing,
`densify_segment` inserts, for each edge whose planar length `d` exceeds
the spacing, exactly `⌊d / spacing⌋` evenly spaced points by linear
interpolation in lat/lon space, inserts none for an edge of length at most
the spacing (including zero-length edges), and in its output no two
consecutive points are farther apart than the spacing. -/
theorem claim3_densify_spacing (mLon s : ℚ) (pts : List (ℚ × ℚ)) (hs : 0 < s) :
    (∀ p0 p1 : ℚ × ℚ,
      s ^ 2 < sqDist (to_local_meters mLon p0) (to_local_meters mLon p1) →
      edgeInterp mLon s p0 p1 =
        (List.range (Int.toNat
          ⌊Real.sqrt ((sqDist (to_local_meters mLon p0) (to_local_meters mLon p1) : ℚ) : ℝ) /
            (s : ℝ)⌋)).map
          (fun j : ℕ => lerp (((j : ℚ) + 1) /
            ((Int.toNat
              ⌊Real.sqrt ((sqDist (to_local_meters mLon p0) (to_local_meters mLon p1) : ℚ) : ℝ) /
                (s : ℝ)⌋ : ℚ) + 1)) p0 p1)) ∧
    (∀ p0 p1 : ℚ × ℚ,
      sqDist (to_local_meters mLon p0) (to_local_meters mLon p1) ≤ s ^ 2 →
      edgeInterp mLon s p0 p1 = []) ∧
    List.Chain'
      (fun p q =>
        Real.sqrt ((sqDist (to_local_meters mLon p) (to_local_meters mLon q) : ℚ) : ℝ) ≤ (s : ℝ))
      (densify_segment mLon s pts) := by
  refine ⟨fun p0 p1 h => ?_, fun p0 p1 h => ?_, ?_⟩
  · have hkey : Int.toNat
        ⌊Real.sqrt ((sqDist (to_local_meters mLon p0) (to_local_meters mLon p1) : ℚ) : ℝ) /
          (s : ℝ)⌋ =
        nInterp (sqDist (to_local_meters mLon p0) (to_local_meters mLon p1)) s := by
      rw [← nInterp_eq_floor_sqrt (sqDist_nonneg _ _) hs, Int.toNat_natCast]
    rw [hkey]
    unfold edgeInterp
    rw [if_pos ⟨hs, h⟩]
  · unfold edgeInterp
    rw [if_neg (fun hc => absurd h (not_le.mpr hc.2))]
  · refine (densify_chain' mLon s hs pts).imp (fun p q hpq => ?_)
    have h1 : ((sqDist (to_local_meters mLon p) (to_local_meters mLon q) : ℚ) : ℝ) ≤
        ((s : ℝ)) ^ 2 := by
      exact_mod_cast hpq
    calc Real.sqrt ((sqDist (to_local_meters mLon p) (to_local_meters mLon q) : ℚ) : ℝ) ≤
        Real.sqrt (((s : ℝ)) ^ 2) := Real.sqrt_le_sqrt h1
      _ = (s : ℝ) := Real.sqrt_sq (by exact_mod_cast hs.le)

/-- claim C3 witness at a concrete polyline and spacing. -/
theorem claim3_witness :
    (0 : ℚ) < 15 ∧
    ((∀ p0 p1 : ℚ × ℚ,
      (15 : ℚ) ^ 2 < sqDist (to_local_meters 84722 p0) (to_local_meters 84722 p1) →
      edgeInterp 84722 15 p0 p1 =
        (List.range (Int.toNat
          ⌊Real.sqrt ((sqDist (to_local_meters 84722 p0) (to_local_meters 84722 p1) : ℚ) : ℝ) /
            ((15 : ℚ) : ℝ)⌋)).map
          (fun j : ℕ => lerp (((j : ℚ) + 1) /
            ((Int.toNat
              ⌊Real.sqrt ((sqDist (to_local_meters 84722 p0) (to_local_meters 84722 p1) : ℚ) : ℝ) /
                ((15 : ℚ) : ℝ)⌋ : ℚ) + 1)) p0 p1)) ∧
    (∀ p0 p1 : ℚ × ℚ,
      sqDist (to_local_meters 84722 p0) (to_local_meters 84722 p1) ≤ (15 : ℚ) ^ 2 →
      edgeInterp 84722 15 p0 p1 = []) ∧
    List.Chain'
      (fun p q =>
        Real.sqrt ((sqDist (to_local_meters 84722 p) (to_local_meters 84722 q) : ℚ) : ℝ) ≤
          ((15 : ℚ) : ℝ))
      (densify_segment 84722 15 [(2, 3), (2001/1000, 3)])) :=
  ⟨by norm_num, claim3_densify_spacing 84722 15 [(2, 3), (2001/1000, 3)] (by norm_num)⟩

/-- claim C8: for positive spacing, densification is idempotent — applying
`densify_segment` to its own output with the same spacing is the identity
(exact-arithmetic model; the source's spacing is the positive constant
`15.0`). -/
theorem claim8_densify_idempotent (mLon s : ℚ) (pts : List (ℚ × ℚ))
    (hs : 0 < s) :
    densify_segment mLon s (densify_segment mLon s pts) =
      densify_segment mLon s pts :=
  densify_eq_self_of_chain' mLon s hs _ (densify_chain' mLon s hs pts)

/-- claim C8 witness at a concrete polyline and spacing. -/
theorem claim8_witness :
    (0 : ℚ) < 15 ∧
    densify_segment 84722 15 (densify_segment 84722 15 [(2, 3), (2001/1000, 3)]) =
      densify_segment 84722 15 [(2, 3), (2001/1000, 3)] :=
  ⟨by norm_num, claim8_densify_idempotent 84722 15 [(2, 3), (2001/1000, 3)] (by norm_num)⟩

/-- claim C7: a route with at least one point, all of whose points miss
(no index point within the buffer radius of any route point), produces a
normal `MatchResult` — not an exception — with `n_segments = 0`,
`match_rate = 0`, all aggregates zero and `avg_truck_pct` null. -/
theorem claim7_all_miss (mLon : ℚ) (rid : ℕ) (segments : List RoadSegment)
    (tree : List ((ℚ × ℚ) × ℕ)) (pts : List (ℚ × ℚ)) (_hne : pts ≠ [])
    (hmiss : ∀ p ∈ pts, ∀ t ∈ tree,
      BUFFER_METERS ^ 2 < sqDist t.1 (to_local_meters mLon p)) :
    match_route_one mLon rid segments tree pts =
      Except.ok
        { route_id := rid, n_segments := 0, total_length_ft := 0,
          weighted_aadt := 0, max_aadt := 0, median_aadt := 0, p90_aadt := 0,
          avg_truck_pct := none, n_route_points := pts.length,
          match_rate := 0 } := by
  have hS : matchedSegSet mLon tree pts = [] := by
    rw [List.eq_nil_iff_forall_not_mem]
    intro i hi
    obtain ⟨p, hp, t, ht, hd, _⟩ := mem_matchedSegSet.mp hi
    exact absurd hd (not_le.mpr (hmiss p hp t ht))
  have hn : nMatchedPts mLon tree pts = 0 := by
    unfold nMatchedPts route_hits
    rw [List.length_eq_zero]
    refine List.filter_eq_nil_iff.mpr (fun l hl => ?_)
    obtain ⟨p, hp, rfl⟩ := List.mem_map.mp hl
    have hq : query_ball_point tree (to_local_meters mLon p) BUFFER_METERS = [] := by
      refine List.filter_eq_nil_iff.mpr (fun t ht => ?_)
      rw [decide_eq_true_eq]
      exact not_le.mpr (hmiss p hp t ht)
    rw [hq]
    simp
  rw [match_route_one_eq, hS, if_pos rfl, hn]
  simp

/-- claim C7 witness: a one-point route far from a one-point index. -/
theorem claim7_witness :
    match_route_one 1000 3
      [{ object_id := some 1, aadt := 7, truck_pct := none, length_ft := 5,
         route_no := none, points := [(2, 3)] }]
      [((222640, 3000), 0)] [(4, 3)] =
      Except.ok
        { route_id := 3, n_segments := 0, total_length_ft := 0,
          weighted_aadt := 0, max_aadt := 0, median_aadt := 0, p90_aadt := 0,
          avg_truck_pct := none, n_route_points := 1, match_rate := 0 } := by
  have h := claim7_all_miss 1000 3
    [{ object_id := some 1, aadt := 7, truck_pct := none, length_ft := 5,
       route_no := none, points := [(2, 3)] }]
    [((222640, 3000), 0)] [(4, 3)] (by decide)
    (by
      intro p hp t ht
      have hp' : p = ((4 : ℚ), (3 : ℚ)) := by simpa using hp
      have ht' : t = (((222640 : ℚ), (3000 : ℚ)), 0) := by simpa using ht
      subst hp'
      subst ht'
      norm_num [sqDist, to_local_meters, METERS_PER_DEG_LAT, BUFFER_METERS])
  simpa using h

/-- claim C9: a result reporting matched segments always reports a
positive match rate — `n_segments > 0` implies `match_rate > 0`. -/
theorem claim9_segments_imp_rate (mLon : ℚ) (rid : ℕ)
    (segments : List RoadSegment) (tree : List ((ℚ × ℚ) × ℕ))
    (pts : List (ℚ × ℚ)) (r : MatchResult)
    (h : match_route_one mLon rid segments tree pts = Except.ok r)
    (hpos : 0 < r.n_segments) : 0 < r.match_rate := by
  rw [match_route_one_eq] at h
  have hr := Except.ok.inj h
  by_cases hS : matchedSegSet mLon tree pts = []
  · rw [if_pos hS] at hr
    rw [← hr] at hpos
    simp at hpos
  · rw [if_neg hS] at hr
    obtain ⟨i, hi⟩ := List.exists_mem_of_ne_nil _ hS
    obtain ⟨p, hp, t, ht, hd, hw⟩ := mem_matchedSegSet.mp hi
    have hq : t ∈ query_ball_point tree (to_local_meters mLon p) BUFFER_METERS := by
      unfold query_ball_point
      rw [List.mem_filter, decide_eq_true_eq]
      exact ⟨ht, hd⟩
    have hlmem : query_ball_point tree (to_local_meters mLon p) BUFFER_METERS ∈
        route_hits mLon tree pts :=
      List.mem_map.mpr ⟨p, hp, rfl⟩
    have hnm : 0 < nMatchedPts mLon tree pts :=
      nMatchedPts_pos hlmem (List.ne_nil_of_mem hq)
    have hlen : 0 < pts.length := List.length_pos.mpr (List.ne_nil_of_mem hp)
    rw [← hr]
    simp only [if_pos hlen]
    exact div_pos (by exact_mod_cast hnm) (by exact_mod_cast hlen)

/-- claim C9 witness: a route point coincident with an index point. -/
theorem claim9_witness :
    (0 : ℚ) < (MatchResult.mk 3 1 5 7 7 7 7 none 1 1).match_rate := by
  have hrun : match_route_one 1000 3
      [{ object_id := some 1, aadt := 7, truck_pct := none, length_ft := 5,
         route_no := none, points := [(2, 3)] }]
      [((222640, 3000), 0)] [(2, 3)] =
      Except.ok (MatchResult.mk 3 1 5 7 7 7 7 none 1 1) := by
    rw [match_route_one_eq]
    have hS : matchedSegSet 1000 [((222640, 3000), 0)] [(2, 3)] = [0] := by
      norm_num [matchedSegSet, route_hits, query_ball_point, to_local_meters,
        sqDist, METERS_PER_DEG_LAT, BUFFER_METERS, List.filter, addSeg]
    have hn : nMatchedPts 1000 [((222640, 3000), 0)] [(2, 3)] = 1 := by
      norm_num [nMatchedPts, route_hits, query_ball_point, to_local_meters,
        sqDist, METERS_PER_DEG_LAT, BUFFER_METERS, List.filter]
    rw [hS, hn]
    norm_num [totalLengthOf, lengthsOf, aadtsOf, matchedList, weightedAadtOf,
      avgTruckOf, truckValsOf, truckSegsOf, truckLengthsOf, maxAadtOf, listMax,
      npMedian, npPercentile90, List.insertionSort, List.orderedInsert]
  have h9 := claim9_segments_imp_rate 1000 3
    [{ object_id := some 1, aadt := 7, truck_pct := none, length_ft := 5,
       route_no := none, points := [(2, 3)] }]
    [((222640, 3000), 0)] [(2, 3)] (MatchResult.mk 3 1 5 7 7 7 7 none 1 1)
    hrun (by norm_num)
  exact h9

/-- claim C4: for a route with at least one point, the loop body succeeds
and (1) the match rate is the number of route points whose radius query
returns at least one index point, divided by the number of route points,
and (2) the matched-segment set is exactly the union over hitting route
points of the segment identities of every returned index point. -/
theorem claim4_match_rate_and_set (mLon : ℚ) (rid : ℕ)
    (segments : List RoadSegment) (tree : List ((ℚ × ℚ) × ℕ))
    (pts : List (ℚ × ℚ)) (hne : pts ≠ []) :
    ∃ r : MatchResult,
      match_route_one mLon rid segments tree pts = Except.ok r ∧
      r.match_rate =
        (pts.countP (fun p => tree.any
          (fun t => decide
            (sqDist t.1 (to_local_meters mLon p) ≤ BUFFER_METERS ^ 2))) : ℚ) /
          (pts.length : ℚ) ∧
      r.n_segments = (matchedSegSet mLon tree pts).length ∧
      (∀ i : ℕ, i ∈ matchedSegSet mLon tree pts ↔
        ∃ p ∈ pts, ∃ t ∈ tree,
          sqDist t.1 (to_local_meters mLon p) ≤ BUFFER_METERS ^ 2 ∧ t.2 = i) := by
  have hlen : 0 < pts.length := List.length_pos.mpr hne
  have hcount : (nMatchedPts mLon tree pts : ℚ) =
      (pts.countP (fun p => tree.any
        (fun t => decide
          (sqDist t.1 (to_local_meters mLon p) ≤ BUFFER_METERS ^ 2))) : ℚ) := by
    rw [nMatchedPts_eq_countP]
  refine ⟨_, match_route_one_eq mLon rid segments tree pts, ?_, ?_, ?_⟩
  · by_cases hS : matchedSegSet mLon tree pts = [] <;>
      simp [hS, if_pos hlen, hcount]
  · by_cases hS : matchedSegSet mLon tree pts = [] <;> simp [hS]
  · exact fun i => mem_matchedSegSet

/-- claim C4 witness: a two-point route against a two-point index. -/
theorem claim4_witness :
    [((2 : ℚ), (3 : ℚ)), (2001/1000, 3)] ≠ [] ∧
    ∃ r : MatchResult,
      match_route_one 1000 0
          [{ object_id := some 1, aadt := 10000, truck_pct := none,
             length_ft := 100, route_no := none, points := [(2, 3)] },
           { object_id := some 2, aadt := 30000, truck_pct := none,
             length_ft := 300, route_no := none, points := [(2001/1000, 3)] }]
          [((222640, 3000), 0), ((5568783/25, 3000), 1)]
          [(2, 3), (2001/1000, 3)] = Except.ok r ∧
      r.match_rate =
        (([((2 : ℚ), (3 : ℚ)), (2001/1000, 3)] : List (ℚ × ℚ)).countP
          (fun p => ([((222640, 3000), 0), ((5568783/25, 3000), 1)] :
              List ((ℚ × ℚ) × ℕ)).any
            (fun t => decide
              (sqDist t.1 (to_local_meters 1000 p) ≤ BUFFER_METERS ^ 2))) : ℚ) /
          (([((2 : ℚ), (3 : ℚ)), (2001/1000, 3)] : List (ℚ × ℚ)).length : ℚ) ∧
      r.n_segments =
        (matchedSegSet 1000 [((222640, 3000), 0), ((5568783/25, 3000), 1)]
          [(2, 3), (2001/1000, 3)]).length ∧
      (∀ i : ℕ, i ∈ matchedSegSet 1000
          [((222640, 3000), 0), ((5568783/25, 3000), 1)]
          [(2, 3), (2001/1000, 3)] ↔
        ∃ p ∈ [((2 : ℚ), (3 : ℚ)), (2001/1000, 3)],
          ∃ t ∈ [((((222640 : ℚ), (3000 : ℚ)), 0) : (ℚ × ℚ) × ℕ),
              ((5568783/25, 3000), 1)],
            sqDist t.1 (to_local_meters 1000 p) ≤ BUFFER_METERS ^ 2 ∧ t.2 = i) :=
  ⟨by decide,
    claim4_match_rate_and_set 1000 0
      [{ object_id := some 1, aadt := 10000, truck_pct := none,
         length_ft := 100, route_no := none, points := [(2, 3)] },
       { object_id := some 2, aadt := 30000, truck_pct := none,
         length_ft := 300, route_no := none, points := [(2001/1000, 3)] }]
      [((222640, 3000), 0), ((5568783/25, 3000), 1)]
      [(2, 3), (2001/1000, 3)] (by decide)⟩

/-- claim C5: for a non-empty matched set, the weighted AADT is the
length-weighted mean `Σ aadt·len / Σ len` when the total matched length is
positive and the unweighted mean otherwise; and the two-segment scenario
(AADT 10000 × length 100, AADT 30000 × length 300, both matched by a
two-point route) yields `weighted_aadt = 25000`, `n_segments = 2`,
`match_rate = 1`. -/
theorem claim5_weighted_aadt (segments : List RoadSegment) (S : List ℕ)
    (hS : S.Nodup) (_hne : S ≠ []) :
    (weightedAadtOf segments S =
      if 0 < ∑ i ∈ S.toFinset, (segAt segments i).length_ft then
        (∑ i ∈ S.toFinset,
            ((segAt segments i).aadt : ℚ) * (segAt segments i).length_ft) /
          ∑ i ∈ S.toFinset, (segAt segments i).length_ft
      else
        (∑ i ∈ S.toFinset, ((segAt segments i).aadt : ℚ)) /
          (S.toFinset.card : ℚ)) ∧
    match_route_one 1000 0
        [{ object_id := some 1, aadt := 10000, truck_pct := none,
           length_ft := 100, route_no := none, points := [(2, 3)] },
         { object_id := some 2, aadt := 30000, truck_pct := none,
           length_ft := 300, route_no := none, points := [(2001/1000, 3)] }]
        (build_penndot_kdtree 1000
          [{ object_id := some 1, aadt := 10000, truck_pct := none,
             length_ft := 100, route_no := none, points := [(2, 3)] },
           { object_id := some 2, aadt := 30000, truck_pct := none,
             length_ft := 300, route_no := none, points := [(2001/1000, 3)] }])
        [(2, 3), (2001/1000, 3)] =
      Except.ok
        { route_id := 0, n_segments := 2, total_length_ft := 400,
          weighted_aadt := 25000, max_aadt := 30000, median_aadt := 20000,
          p90_aadt := 28000, avg_truck_pct := none, n_route_points := 2,
          match_rate := 1 } := by
  constructor
  · unfold weightedAadtOf
    rw [totalLengthOf_eq_sum hS, zip_aadt_len_eq_sum hS, aadts_sum_eq hS,
      aadts_length_eq hS]
  · have htree : build_penndot_kdtree 1000
        [{ object_id := some 1, aadt := 10000, truck_pct := none,
           length_ft := 100, route_no := none, points := [(2, 3)] },
         { object_id := some 2, aadt := 30000, truck_pct := none,
           length_ft := 300, route_no := none, points := [(2001/1000, 3)] }] =
        [((222640, 3000), 0), ((5568783/25, 3000), 1)] := by
      norm_num [build_penndot_kdtree, densify_segment, to_local_meters,
        METERS_PER_DEG_LAT, List.enum, List.enumFrom]
    rw [htree]
    have h2 : matchedSegSet 1000 [((222640, 3000), 0), ((5568783/25, 3000), 1)]
        [(2, 3), (2001/1000, 3)] = [0, 1] := by
      norm_num [matchedSegSet, route_hits, query_ball_point, to_local_meters,
        sqDist, METERS_PER_DEG_LAT, BUFFER_METERS, List.filter, addSeg]
    have h3 : nMatchedPts 1000 [((222640, 3000), 0), ((5568783/25, 3000), 1)]
        [(2, 3), (2001/1000, 3)] = 2 := by
      norm_num [nMatchedPts, route_hits, query_ball_point, to_local_meters,
        sqDist, METERS_PER_DEG_LAT, BUFFER_METERS, List.filter]
    rw [match_route_one_eq, h2, h3]
    norm_num [totalLengthOf, lengthsOf, aadtsOf, matchedList, weightedAadtOf,
      avgTruckOf, truckValsOf, truckSegsOf, truckLengthsOf, maxAadtOf, listMax,
      npMedian, npPercentile90, List.insertionSort, List.orderedInsert]
    decide

/-- claim C5 witness: the weighted-mean formula evaluated on the
two-segment scenario's matched set. -/
theorem claim5_witness :
    weightedAadtOf
      [{ object_id := some 1, aadt := 10000, truck_pct := none,
         length_ft := 100, route_no := none, points := [(2, 3)] },
       { object_id := some 2, aadt := 30000, truck_pct := none,
         length_ft := 300, route_no := none, points := [(2001/1000, 3)] }]
      [0, 1] = 25000 := by
  have h := (claim5_weighted_aadt
    [{ object_id := some 1, aadt := 10000, truck_pct := none,
       length_ft := 100, route_no := none, points := [(2, 3)] },
     { object_id := some 2, aadt := 30000, truck_pct := none,
       length_ft := 300, route_no := none, points := [(2001/1000, 3)] }]
    [0, 1] (by decide) (by decide)).1
  rw [h]
  norm_num [segAt, List.getD]

/-- claim C6 counterexample: with a negative segment length (the parser
does not validate `SEG_LNGTH_FEET`), the weighted AADT escapes the range
of the matched AADT values: values 10 and 20 yield weighted AADT 30. -/
theorem claim6_counterexample :
    aadtsOf
      [{ object_id := none, aadt := 10, truck_pct := none, length_ft := -1,
         route_no := none, points := [] },
       { object_id := none, aadt := 20, truck_pct := none, length_ft := 2,
         route_no := none, points := [] }] [0, 1] = [10, 20] ∧
    weightedAadtOf
      [{ object_id := none, aadt := 10, truck_pct := none, length_ft := -1,
         route_no := none, points := [] },
       { object_id := none, aadt := 20, truck_pct := none, length_ft := 2,
         route_no := none, points := [] }] [0, 1] = 30 ∧
    ¬(weightedAadtOf
      [{ object_id := none, aadt := 10, truck_pct := none, length_ft := -1,
         route_no := none, points := [] },
       { object_id := none, aadt := 20, truck_pct := none, length_ft := 2,
         route_no := none, points := [] }] [0, 1] ≤ 20) := by
  norm_num [weightedAadtOf, totalLengthOf, lengthsOf, aadtsOf, matchedList,
    List.getD]

/-- claim C6 (amended): for a non-empty matched set all of whose segments
have non-negative length, the weighted AADT is a convex combination of the
AADT values — it lies between any lower bound and any upper bound of
them. -/
theorem claim6_amended_convex (segments : List RoadSegment) (S : List ℕ)
    (hS : S.Nodup) (hne : S ≠ [])
    (hlen : ∀ i ∈ S, 0 ≤ (segAt segments i).length_ft) (A B : ℚ)
    (hub : ∀ i ∈ S, ((segAt segments i).aadt : ℚ) ≤ A)
    (hlb : ∀ i ∈ S, B ≤ ((segAt segments i).aadt : ℚ)) :
    B ≤ weightedAadtOf segments S ∧ weightedAadtOf segments S ≤ A := by
  unfold weightedAadtOf
  rw [totalLengthOf_eq_sum hS, zip_aadt_len_eq_sum hS, aadts_sum_eq hS,
    aadts_length_eq hS]
  by_cases h : 0 < ∑ i ∈ S.toFinset, (segAt segments i).length_ft
  · rw [if_pos h]
    constructor
    · rw [le_div_iff₀ h]
      calc B * ∑ i ∈ S.toFinset, (segAt segments i).length_ft =
          ∑ i ∈ S.toFinset, B * (segAt segments i).length_ft := by
            rw [Finset.mul_sum]
        _ ≤ ∑ i ∈ S.toFinset,
            ((segAt segments i).aadt : ℚ) * (segAt segments i).length_ft := by
            refine Finset.sum_le_sum (fun i hi => ?_)
            exact mul_le_mul_of_nonneg_right
              (hlb i (List.mem_toFinset.mp hi))
              (hlen i (List.mem_toFinset.mp hi))
    · rw [div_le_iff₀ h]
      calc (∑ i ∈ S.toFinset,
            ((segAt segments i).aadt : ℚ) * (segAt segments i).length_ft) ≤
          ∑ i ∈ S.toFinset, A * (segAt segments i).length_ft := by
            refine Finset.sum_le_sum (fun i hi => ?_)
            exact mul_le_mul_of_nonneg_right
              (hub i (List.mem_toFinset.mp hi))
              (hlen i (List.mem_toFinset.mp hi))
        _ = A * ∑ i ∈ S.toFinset, (segAt segments i).length_ft := by
            rw [Finset.mul_sum]
  · rw [if_neg h]
    have hcard : (0 : ℚ) < (S.toFinset.card : ℚ) := by
      obtain ⟨x, hx⟩ := List.exists_mem_of_ne_nil _ hne
      have : 0 < S.toFinset.card :=
        Finset.card_pos.mpr ⟨x, List.mem_toFinset.mpr hx⟩
      exact_mod_cast this
    constructor
    · rw [le_div_iff₀ hcard]
      calc B * (S.toFinset.card : ℚ) =
          ∑ _i ∈ S.toFinset, B := by
            rw [Finset.sum_const, nsmul_eq_mul, mul_comm]
        _ ≤ ∑ i ∈ S.toFinset, ((segAt segments i).aadt : ℚ) :=
            Finset.sum_le_sum (fun i hi => hlb i (List.mem_toFinset.mp hi))
    · rw [div_le_iff₀ hcard]
      calc (∑ i ∈ S.toFinset, ((segAt segments i).aadt : ℚ)) ≤
          ∑ _i ∈ S.toFinset, A :=
            Finset.sum_le_sum (fun i hi => hub i (List.mem_toFinset.mp hi))
        _ = A * (S.toFinset.card : ℚ) := by
            rw [Finset.sum_const, nsmul_eq_mul, mul_comm]

/-- claim C6 witness: 10 ≤ weighted AADT ≤ 30 on a two-segment matched
set with non-negative lengths. -/
theorem claim6_witness :
    10 ≤ weightedAadtOf
        [{ object_id := none, aadt := 10, truck_pct := none, length_ft := 1,
           route_no := none, points := [] },
         { object_id := none, aadt := 30, truck_pct := none, length_ft := 3,
           route_no := none, points := [] }] [0, 1] ∧
      weightedAadtOf
        [{ object_id := none, aadt := 10, truck_pct := none, length_ft := 1,
           route_no := none, points := [] },
         { object_id := none, aadt := 30, truck_pct := none, length_ft := 3,
           route_no := none, points := [] }] [0, 1] ≤ 30 := by
  refine claim6_amended_convex _ [0, 1] (by decide) (by decide) ?_ 30 10 ?_ ?_ <;>
    (intro i hi; fin_cases hi <;> norm_num [segAt, List.getD])

/-- claim C10: a feature with an absent or null `SEG_LNGTH_FEET` is not
skipped for that reason — it becomes a segment with `length_ft = 0`
(skips are exactly missing/non-positive AADT or an empty paths list) —
and a route all of whose matched segments have zero length takes the
unweighted-mean fallback for the weighted AADT. -/
theorem claim10_zero_length (w2w : ℚ × ℚ → ℚ × ℚ) (F : List RawFeature) :
    (∀ f : RawFeature, f.attributes.SEG_LNGTH_FEET = none →
      (segOf w2w f).length_ft = 0) ∧
    (parse_penndot_segments w2w F =
      ((F.filter (fun f => !skippedB f)).map (segOf w2w), F.countP skippedB)) ∧
    (∀ (segments : List RoadSegment) (S : List ℕ), S.Nodup → S ≠ [] →
      (∀ i ∈ S, (segAt segments i).length_ft = 0) →
      weightedAadtOf segments S =
        (∑ i ∈ S.toFinset, ((segAt segments i).aadt : ℚ)) /
          (S.toFinset.card : ℚ)) := by
  refine ⟨fun f hf => ?_, parse_eq_filter_map w2w F, ?_⟩
  · unfold segOf
    rw [hf]
    rfl
  · intro segments S hS _hne hzero
    have htot : totalLengthOf segments S = 0 := by
      rw [totalLengthOf_eq_sum hS]
      exact Finset.sum_eq_zero
        (fun i hi => hzero i (List.mem_toFinset.mp hi))
    unfold weightedAadtOf
    rw [htot, if_neg (lt_irrefl 0), aadts_sum_eq hS, aadts_length_eq hS]

/-- claim C10 witness: a feature with null length parses to a zero-length
segment, and a single zero-length matched segment falls back to the
unweighted mean. -/
theorem claim10_witness :
    (segOf (fun p => p)
      { attributes := { OBJECTID := none, CUR_AADT := some 5, TRK_PCT := none,
                        SEG_LNGTH_FEET := none, ST_RT_NO := none },
        geometry_paths := [[(1, 2)]] }).length_ft = 0 ∧
    weightedAadtOf
      [{ object_id := none, aadt := 5, truck_pct := none, length_ft := 0,
         route_no := none, points := [(1, 2)] }] [0] = 5 := by
  obtain ⟨h1, _h2, h3⟩ := claim10_zero_length (fun p => p) []
  refine ⟨h1 _ rfl, ?_⟩
  have h := h3
    [{ object_id := none, aadt := 5, truck_pct := none, length_ft := 0,
       route_no := none, points := [(1, 2)] }] [0]
    (by decide) (by decide)
    (by intro i hi; fin_cases hi <;> norm_num [segAt, List.getD])
  rw [h]
  norm_num [segAt, List.getD]

/-- claim C2 counterexample: a feature with positive AADT whose `paths`
list is `[[]]` (non-empty, but containing only an empty path) is not
skipped and parses to a segment with an empty points list, refuting
"every segment produced by the parser has a non-empty points list". -/
theorem claim2_counterexample :
    ((parse_penndot_segments (fun p => p)
      [{ attributes := { OBJECTID := none, CUR_AADT := some 5, TRK_PCT := none,
                         SEG_LNGTH_FEET := none, ST_RT_NO := none },
         geometry_paths := [[]] }]).1.all
      (fun s => !s.points.isEmpty)) = false ∧
    (parse_penndot_segments (fun p => p)
      [{ attributes := { OBJECTID := none, CUR_AADT := some 5, TRK_PCT := none,
                         SEG_LNGTH_FEET := none, ST_RT_NO := none },
         geometry_paths := [[]] }]).2 = 0 := by
  decide

/-- claim C2 (amended): every segment produced by the parser has
`aadt > 0` (records with missing or non-positive AADT, or an empty paths
list, are skipped and counted); a record with non-empty but all-empty
paths yields a segment with an empty points list, yet every point of the
spatial index references a segment with positive AADT and a non-empty
points list, so no segment with `aadt ≤ 0` or empty points contributes to
the index. -/
theorem claim2_amended_parse_invariant (w2w : ℚ × ℚ → ℚ × ℚ)
    (F : List RawFeature) (mLon : ℚ) :
    (∀ s ∈ (parse_penndot_segments w2w F).1, 0 < s.aadt) ∧
    (∀ t ∈ build_penndot_kdtree mLon (parse_penndot_segments w2w F).1,
      0 < (segAt (parse_penndot_segments w2w F).1 t.2).aadt ∧
      (segAt (parse_penndot_segments w2w F).1 t.2).points ≠ []) := by
  have hall : ∀ s ∈ (parse_penndot_segments w2w F).1, 0 < s.aadt := by
    intro s hs
    rw [parse_eq_filter_map] at hs
    obtain ⟨f, hf, rfl⟩ := List.mem_map.mp hs
    have hf2 := (List.mem_filter.mp hf).2
    unfold skippedB at hf2
    unfold segOf
    cases hA : f.attributes.CUR_AADT with
    | none => rw [hA] at hf2; simp at hf2
    | some a =>
      rw [hA] at hf2
      simp only [Bool.not_or, Bool.and_eq_true, Bool.not_eq_true',
        decide_eq_false_iff_not, not_le] at hf2
      simpa [hA] using hf2.1
  refine ⟨hall, fun t ht => ?_⟩
  unfold build_penndot_kdtree at ht
  rw [List.mem_flatMap] at ht
  obtain ⟨is, his, ht2⟩ := ht
  rw [List.mem_map] at ht2
  obtain ⟨p, hp, rfl⟩ := ht2
  obtain ⟨i, seg⟩ := is
  have hget : (parse_penndot_segments w2w F).1[i]? = some seg := by
    simpa using List.mk_mem_enum_iff_getElem?.mp his
  have hseg : segAt (parse_penndot_segments w2w F).1 i = seg := by
    unfold segAt
    rw [List.getD_eq_getElem?_getD, hget]
    rfl
  dsimp only
  rw [hseg]
  have hsegmem : seg ∈ (parse_penndot_segments w2w F).1 :=
    List.getElem?_mem hget
  refine ⟨hall seg hsegmem, fun hpts => ?_⟩
  rw [hpts] at hp
  simp [densify_segment] at hp

/-- claim C1: the per-route computation never raises (in particular no
division-by-zero exception: `match_rate` is guarded, NumPy division is
total), and when the matched set has truck reporters, `avg_truck_pct` is
the length-weighted mean over exactly the truck-reporting subset whenever
that subset's lengths have a positive sum (with positive total matched
length); when those lengths sum to zero while the total matched length is
positive, the NumPy division yields a non-finite value — still no
exception. -/
theorem claim1_avg_truck_safety (segments : List RoadSegment) (S : List ℕ)
    (hS : S.Nodup) :
    (∀ (mLon : ℚ) (rid : ℕ) (segs : List RoadSegment)
        (tree : List ((ℚ × ℚ) × ℕ)) (pts : List (ℚ × ℚ)),
      ∃ r : MatchResult,
        match_route_one mLon rid segs tree pts = Except.ok r) ∧
    (truckValsOf segments S ≠ [] → 0 < totalLengthOf segments S →
      0 < (truckLengthsOf segments S).sum →
      avgTruckOf segments S = some (NumF.fin
        ((∑ i ∈ S.toFinset.filter (truckP segments ·),
            (segAt segments i).truck_pct.getD 0 * (segAt segments i).length_ft) /
          ∑ i ∈ S.toFinset.filter (truckP segments ·),
            (segAt segments i).length_ft))) ∧
    (truckValsOf segments S ≠ [] → 0 < totalLengthOf segments S →
      (truckLengthsOf segments S).sum = 0 →
      avgTruckOf segments S = some NumF.nonfin) := by
  refine ⟨fun mLon rid segs tree pts => ⟨_, match_route_one_eq mLon rid segs tree pts⟩,
    fun hne htot hpos => ?_, fun hne htot hzero => ?_⟩
  · unfold avgTruckOf
    rw [if_pos ⟨hne, htot⟩]
    unfold npDivQ
    rw [if_neg (ne_of_gt hpos), truckZip_sum_eq hS, truckLengths_sum_eq hS]
  · unfold avgTruckOf
    rw [if_pos ⟨hne, htot⟩]
    unfold npDivQ
    rw [if_pos hzero]

/-- claim C1 witness: one truck-reporting matched segment of positive
length gives the weighted mean, here `4 * 5 / 5 = 4`. -/
theorem claim1_witness :
    avgTruckOf
      [{ object_id := none, aadt := 10, truck_pct := some 4, length_ft := 5,
         route_no := none, points := [] }] [0] = some (NumF.fin 4) := by
  have h := (claim1_avg_truck_safety
    [{ object_id := none, aadt := 10, truck_pct := some 4, length_ft := 5,
       route_no := none, points := [] }] [0] (by decide)).2.1
    (by decide)
    (by norm_num [totalLengthOf, lengthsOf, matchedList, List.getD])
    (by norm_num [truckLengthsOf, truckSegsOf, matchedList, List.getD])
  rw [h]
  norm_num [segAt, truckP, List.getD, Finset.filter_singleton,
    Finset.sum_singleton]

/-- claim C2 witness: the parsed segment of a well-formed feature has
positive AADT. -/
theorem claim2_witness :
    0 < (segOf (fun p => p)
      { attributes := { OBJECTID := none, CUR_AADT := some 5, TRK_PCT := none,
                        SEG_LNGTH_FEET := none, ST_RT_NO := none },
        geometry_paths := [[(1, 2)]] }).aadt := by
  have hp : (parse_penndot_segments (fun p => p)
      [{ attributes := { OBJECTID := none, CUR_AADT := some 5, TRK_PCT := none,
                         SEG_LNGTH_FEET := none, ST_RT_NO := none },
         geometry_paths := [[(1, 2)]] }]).1 =
      [segOf (fun p => p)
        { attributes := { OBJECTID := none, CUR_AADT := some 5, TRK_PCT := none,
                          SEG_LNGTH_FEET := none, ST_RT_NO := none },
          geometry_paths := [[(1, 2)]] }] := rfl
  refine (claim2_amended_parse_invariant (fun p => p)
    [{ attributes := { OBJECTID := none, CUR_AADT := some 5, TRK_PCT := none,
                       SEG_LNGTH_FEET := none, ST_RT_NO := none },
       geometry_paths := [[(1, 2)]] }] 1).1 _ ?_
  rw [hp]
  exact List.mem_cons_self _ _
